import Mathlib

/-!
Verification of the proxy-selection service in `proxy_generator_k/app.py`.

The pure computational core of the program is embedded shallowly:
strings are Lean `String`s, Python floats are idealised as real numbers,
JSON fields that may be missing or null are `Option`s, and each upstream
network call is a parameter carrying the response the call would have
produced.  The concurrent selection loop is modelled as a pure fold over
the per-wave observation sequences (the order in which `as_completed`
yields results inside one wave is an arbitrary permutation of that wave).
-/

namespace ProxyGen

/-! ### Basic string helpers (Python semantics) -/

/-- Models Python's `str.lower()` (accurate on the ASCII strings the
program manipulates). -/
def pyLower (s : String) : String := ⟨s.data.map Char.toLower⟩

/-- Does `sub` occur at the head of `l`?  Building block for the model of
Python's `in` operator on strings. -/
def headMatch : List Char → List Char → Bool
  | [], _ => true
  | _ :: _, [] => false
  | a :: as, b :: bs => a == b && headMatch as bs

/-- Does `sub` occur (contiguously) anywhere in `l`? -/
def occursIn (sub : List Char) : List Char → Bool
  | [] => sub.isEmpty
  | c :: t => headMatch sub (c :: t) || occursIn sub t

/-- Models Python's `sub in s` substring test. -/
def strContains (s sub : String) : Bool := occursIn sub.data s.data

/-- Models Python's `sep.join(parts)`. -/
def pyJoin (sep : String) : List String → String
  | [] => ""
  | [s] => s
  | s :: t :: rest => s ++ sep ++ pyJoin sep (t :: rest)

/-- Python truthiness of an optional string (`None` and `""` are falsy). -/
def truthyStr : Option String → Bool
  | none => false
  | some s => !(s == "")

/-! ### `generate_session_id` (app.py line 42) -/

/-- The alphabet `string.ascii_letters + string.digits` used by
`generate_session_id`: 62 alphanumeric characters. -/
def sessionChars : List Char :=
  "abcdefghijklmnopqrstuvwxyzABCDEFGHIJKLMNOPQRSTUVWXYZ0123456789".data

/-- Models `generate_session_id`.  Each call to `random.choice(chars)`
is modelled by one value of `draw`, an index drawn (uniformly, by the
semantics of `random.choice`) from the 62-element alphabet. -/
def generate_session_id (draw : ℕ → Fin 62) (len : ℕ) : String :=
  ⟨(List.range len).map fun i => sessionChars.get (Fin.cast (by decide) (draw i))⟩

/-! ### `build_soax_proxy` (app.py line 84) -/

/-- Models `region.lower().replace(' ', '+')` (and the identical city
normalisation). -/
def cleanPlus (s : String) : String :=
  ⟨(pyLower s).data.map fun c => if c = ' ' then '+' else c⟩

/-- The dictionary returned by `build_soax_proxy`. -/
structure SoaxProxy where
  provider : String
  full_string : String
  server : String
  port : String
  username : String
  password : String
  session_id : String

/-- Models `build_soax_proxy`.  The source's default arguments
(`country='us'`, `region=None`, `city=None`, `session_length=3600`) are
passed explicitly by every caller modelled here. -/
def build_soax_proxy (draw : ℕ → Fin 62) (package_id password country : String)
    (region city : Option String) (session_length : ℕ) : SoaxProxy :=
  let session_id := generate_session_id draw 16
  let parts0 : List String := ["package-" ++ package_id]
  let parts1 := if country ≠ "" then parts0 ++ ["country-" ++ pyLower country] else parts0
  let parts2 := if truthyStr region then parts1 ++ ["region-" ++ cleanPlus (region.getD "")] else parts1
  let parts3 := if truthyStr city then parts2 ++ ["city-" ++ cleanPlus (city.getD "")] else parts2
  let parts4 := parts3 ++ ["sessionid-" ++ session_id] ++ ["sessionlength-" ++ toString session_length]
  let username := pyJoin "-" parts4
  { provider := "SOAX"
    full_string := username ++ ":" ++ password ++ "@proxy.soax.com:5000"
    server := "proxy.soax.com"
    port := "5000"
    username := username
    password := password
    session_id := session_id }

/-! ### The proxy-string parse (app.py line 145)

Model of `re.match(r'^(.+):(.+)@(.+):(\d+)$', proxy_string)` with Python
semantics: `.` matches any character except `'\n'`, `\d` matches digits,
`$` matches at the end of the string or just before a single trailing
`'\n'`, and each greedy quantifier takes the longest alternative for
which the rest of the pattern can still match. -/

/-- All characters of `l` are digits and `l` is non-empty (`\d+`). -/
def digitsOnly (l : List Char) : Bool := !l.isEmpty && l.all fun c => c.isDigit

/-- No newline occurs in `l` (the constraint `.` imposes on a group). -/
def noNL (l : List Char) : Bool := l.all fun c => !(c == '\n')

/-- Splits `l` at the last occurrence of `ch` whose suffix satisfies `p`;
this is how a greedy `(.+)` followed by the literal `ch` picks its
match. -/
def lastSplit (ch : Char) (p : List Char → Bool) : List Char → Option (List Char × List Char)
  | [] => none
  | x :: xs =>
    match lastSplit ch p xs with
    | some (a, b) => some (x :: a, b)
    | none => if x == ch && p xs then some ([], xs) else none

/-- Greedy match of `(.+):(\d+)$` against all of `l`, returning the two
groups. -/
def matchHostPort (l : List Char) : Option (List Char × List Char) :=
  match l with
  | [] => none
  | x :: xs =>
    match lastSplit ':' digitsOnly xs with
    | some (a, d) => if noNL (x :: a) then some (x :: a, d) else none
    | none => none

/-- Greedy match of `(.+)@(.+):(\d+)$` against all of `l`. -/
def matchTail3 (l : List Char) : Option (List Char × List Char × List Char) :=
  match l with
  | [] => none
  | x :: xs =>
    match lastSplit '@' (fun t => (matchHostPort t).isSome) xs with
    | some (b, rest) =>
      match matchHostPort rest with
      | some (c, d) => if noNL (x :: b) then some (x :: b, c, d) else none
      | none => none
    | none => none

/-- Greedy match of `(.+):(.+)@(.+):(\d+)$` against all of `l`. -/
def parseCore (l : List Char) : Option (List Char × List Char × List Char × List Char) :=
  match l with
  | [] => none
  | x :: xs =>
    match lastSplit ':' (fun t => (matchTail3 t).isSome) xs with
    | some (u, rest) =>
      match matchTail3 rest with
      | some (b, c, d) => if noNL (x :: u) then some (x :: u, b, c, d) else none
      | none => none
    | none => none

/-- Drops one trailing newline, the position at which `$` may also
match. -/
def stripTrailNL (l : List Char) : List Char :=
  match l.getLast? with
  | some c => if c = '\n' then l.dropLast else l
  | none => l

/-- Models the `re.match` on line 145 together with the four
`match.group(i)` extractions: `username`, `password`, `host`, `port`. -/
def parseProxyString (s : String) : Option (String × String × String × String) :=
  match parseCore (stripTrailNL s.data) with
  | some (u, b, c, d) => some (⟨u⟩, ⟨b⟩, ⟨c⟩, ⟨d⟩)
  | none => none

/-! ### `haversine_distance` (app.py line 118) -/

/-- Models `math.radians`. -/
noncomputable def radians (x : ℝ) : ℝ := x * Real.pi / 180

/-- Models `math.atan2 y x`. -/
noncomputable def atan2 (y x : ℝ) : ℝ :=
  if 0 < x then Real.arctan (y / x)
  else if x < 0 then
    (if 0 ≤ y then Real.arctan (y / x) + Real.pi else Real.arctan (y / x) - Real.pi)
  else if 0 < y then Real.pi / 2
  else if y < 0 then -(Real.pi / 2)
  else 0

/-- Models `haversine_distance`: the haversine formula with Earth radius
3959 miles, Python floats idealised as reals. -/
noncomputable def haversine_distance (lat1 lon1 lat2 lon2 : ℝ) : ℝ :=
  let R : ℝ := 3959
  let lat1_rad := radians lat1
  let lat2_rad := radians lat2
  let delta_lat := radians (lat2 - lat1)
  let delta_lon := radians (lon2 - lon1)
  let a := Real.sin (delta_lat / 2) ^ 2 +
    Real.cos lat1_rad * Real.cos lat2_rad * Real.sin (delta_lon / 2) ^ 2
  let c := 2 * atan2 (Real.sqrt a) (Real.sqrt (1 - a))
  R * c

/-! ### The acceptance policy (app.py lines 196-245)

This is the tail of `test_proxy` that runs once the probe has connected
and obtained IP metadata: it receives the computed `distance` and the
defaulted metadata fields and produces the result dictionary. -/

/-- The result dictionary built on lines 200-214 (its `success` key,
always `True` on this path, is carried by the `TestOutcome.res`
constructor below). -/
structure ProbeData where
  passed : Bool
  fail_reasons : List String
  ip : String
  city : String
  region : String
  country : String
  lat : ℝ
  lon : ℝ
  distance : ℝ
  isp : String
  org : String
  as_name : String

/-- Models the rendering `f"{x:.1f}"` of a distance (Python formats the
underlying binary float with round-half-even; over the idealised reals
we render the tenths digit after half-up rounding — no claim depends on
the digits themselves). -/
noncomputable def fmtFixed1 (x : ℝ) : String :=
  toString (⌊x * 10 + 1 / 2⌋ / 10) ++ "." ++ toString (⌊x * 10 + 1 / 2⌋ % 10)

open Classical in
/-- Models the rendering `f"{max_distance}"`; the request's JSON number
is rendered exactly when integral, and like a fixed-point float
otherwise. -/
noncomputable def pyStrNum (x : ℝ) : String :=
  if (⌊x⌋ : ℝ) = x then toString ⌊x⌋ else fmtFixed1 x

/-- The rejection reason built on line 218. -/
noncomputable def distanceFailReason (distance max_distance : ℝ) : String :=
  "Distance " ++ (fmtFixed1 distance ++ " miles > " ++ pyStrNum max_distance ++ " max")

/-- The rejection reason built on line 232. -/
def mobileFailReason (isp : String) : String := "Mobile ISP: " ++ isp

/-- The rejection reason built on line 240. -/
def flaggedFailReason (isp : String) : String := "Flagged ISP: " ++ isp

/-- The keyword deny-list of line 224. -/
def mobile_keywords : List String :=
  ["mobile", "wireless", "cellular", "lte", "5g", "4g", "3g"]

/-- The named-carrier deny-list of line 225. -/
def mobile_carriers : List String :=
  ["at&t", "att ", "verizon", "t-mobile", "tmobile", "sprint", "cricket",
   "boost", "metro pcs", "metropcs", "us cellular", "uscellular"]

/-- The flagged-ISP deny-list of line 236. -/
def flagged_isps : List String := ["rcn", "starlink"]

/-- The `is_mobile` condition of lines 227-229. -/
def mobileCheck (isp as_name : String) (ipapi_mobile : Bool) : Bool :=
  ipapi_mobile
    || mobile_keywords.any (fun kw =>
        strContains (pyLower isp) kw || strContains (pyLower as_name) kw)
    || mobile_carriers.any (fun carrier =>
        strContains (pyLower isp) carrier || strContains (pyLower as_name) carrier)

/-- The `is_flagged` condition of line 237. -/
def flaggedCheck (isp as_name : String) : Bool :=
  flagged_isps.any fun f =>
    strContains (pyLower isp) f || strContains (pyLower as_name) f

/-- Models lines 199-245: build the result object, then run the three
ordered checks, returning at the first failure (the source mutates
`result` and returns early; this is the same early-return chain). -/
noncomputable def applyChecks (proxy_ip city region country : String) (lat lon : ℝ)
    (isp org as_name : String) (ipapi_mobile : Bool) (distance max_distance : ℝ) :
    ProbeData :=
  let result : ProbeData :=
    { passed := false, fail_reasons := [], ip := proxy_ip, city := city,
      region := region, country := country, lat := lat, lon := lon,
      distance := distance, isp := isp, org := org, as_name := as_name }
  if distance > max_distance then
    { result with fail_reasons := [distanceFailReason distance max_distance] }
  else if mobileCheck isp as_name ipapi_mobile then
    { result with fail_reasons := [mobileFailReason isp] }
  else if flaggedCheck isp as_name then
    { result with fail_reasons := [flaggedFailReason isp] }
  else
    { result with passed := true }

/-! ### `test_proxy` (app.py line 133) -/

/-- The outcome of one probe: `err` models the `{'success': False,
'error': ...}` dictionaries (the `Option` mirrors `.get('error', ...)`
lookups on them), `res` models the `success: True` result object. -/
inductive TestOutcome where
  | err (msg : Option String)
  | res (d : ProbeData)

/-- The JSON payload of the ip-api.com response (line 178), each
requested field possibly missing or null. -/
structure IpApiRaw where
  status : Option String
  message : Option String
  country : Option String
  regionName : Option String
  city : Option String
  lat : Option ℝ
  lon : Option ℝ
  isp : Option String
  org : Option String
  as_name : Option String
  mobile : Option Bool

/-- The responses the three upstream calls of one probe would produce:
`none` on the two IP-discovery calls models a raised
exception/timeout, `Except.error e` on the metadata call models an
exception with message `e`. -/
structure Upstream where
  primary_ip : Option String
  fallback_ip : Option String
  ipapi : Except String IpApiRaw

/-- Models `ipapi_data.get(k, 'Unknown') or 'Unknown'` (lines 185-190):
a missing or null field, or an empty string, becomes `"Unknown"`. -/
def defaultStr (v : Option String) : String :=
  match v with
  | none => "Unknown"
  | some s => if s = "" then "Unknown" else s

/-- Models `test_proxy` with the upstream responses passed in.  The
ordering is the source's: parse, exit-IP discovery with one fallback,
metadata lookup with defaulting, distance, ordered checks. -/
noncomputable def test_proxy (proxy_string : String) (target_lat target_lon : ℝ)
    (max_distance : ℝ) (up : Upstream) : TestOutcome :=
  match parseProxyString proxy_string with
  | none => .err (some "Invalid proxy format")
  | some _groups =>
    match up.primary_ip <|> up.fallback_ip with
    | none => .err (some "Connection timeout")
    | some proxy_ip =>
      if proxy_ip = "" then .err (some "Could not get proxy IP")
      else
        match up.ipapi with
        | .error e => .err (some ("ip-api failed: " ++ e))
        | .ok ipapi_data =>
          if ipapi_data.status = some "fail" then
            .err (some ("ip-api error: " ++ ipapi_data.message.getD "None"))
          else
            let lat := ipapi_data.lat.getD 0
            let lon := ipapi_data.lon.getD 0
            let city := defaultStr ipapi_data.city
            let region := defaultStr ipapi_data.regionName
            let country := defaultStr ipapi_data.country
            let isp := defaultStr ipapi_data.isp
            let org := defaultStr ipapi_data.org
            let as_name := defaultStr ipapi_data.as_name
            let ipapi_mobile := ipapi_data.mobile.getD false
            let distance := haversine_distance target_lat target_lon lat lon
            .res (applyChecks proxy_ip city region country lat lon isp org as_name
              ipapi_mobile distance max_distance)

/-! ### The selection loop of `generate` (app.py lines 1098-1216) -/

/-- The loop's mutable diagnostic state (`total_tested`,
`last_fail_reasons`, `last_result` of lines 1154-1157). -/
structure LoopState where
  total_tested : ℕ
  last_fail_reasons : List String
  last_result : Option TestOutcome

/-- The JSON object returned on line 1179 when a probe passes. -/
structure SuccessResp where
  proxy : SoaxProxy
  result : ProbeData
  attempts_used : ℕ

/-- The `last_result` snapshot of lines 1209-1215: `.get` on the result
dictionary, so every field of an error dictionary reads as null. -/
structure FailureSnapshot where
  ip : Option String
  city : Option String
  region : Option String
  isp : Option String
  distance : Option ℝ

/-- Builds the failure snapshot from the last observed result. -/
def snapshotOf : TestOutcome → FailureSnapshot
  | .err _ => ⟨none, none, none, none, none⟩
  | .res d => ⟨some d.ip, some d.city, some d.region, some d.isp, some d.distance⟩

/-- The outcome of the whole loop: the success JSON or the failure JSON
(whose human-readable `error` string, interpolating `max_distance` and
the attempt count, carries no further data and is not modelled
separately). -/
inductive GenOutcome where
  | success (r : SuccessResp)
  | failure (attempts : ℕ) (last_fail_reasons : List String)
      (last_result : Option FailureSnapshot)

/-- Did this observed result have `result['passed']` true?  (An error
dictionary has no `passed` key and is never accepted: line 1171 skips
it first.) -/
def isAccepted (o : SoaxProxy × TestOutcome) : Bool :=
  match o.2 with
  | .err _ => false
  | .res d => d.passed

/-- The `last_fail_reasons` update for one observed result: line 1172
for error dictionaries (`result.get('error', 'Connection failed')`),
line 1175 for policy results. -/
def reasonsOfOutcome : TestOutcome → List String
  | .err m => [m.getD "Connection failed"]
  | .res d => d.fail_reasons

/-- One non-accepting iteration of the `as_completed` loop body:
increment `total_tested`, overwrite `last_result` and
`last_fail_reasons`. -/
def observeFail (st : LoopState) (o : SoaxProxy × TestOutcome) : LoopState :=
  ⟨st.total_tested + 1, reasonsOfOutcome o.2, some o.2⟩

/-- Processes one wave's results in completion order: return the success
response at the first accepted result (line 1177's early return out of
the whole request handler), otherwise thread the diagnostic state. -/
def runWave : LoopState → List (SoaxProxy × TestOutcome) → LoopState ⊕ SuccessResp
  | st, [] => .inl st
  | st, o :: os =>
    match o.2 with
    | .err _ => runWave (observeFail st o) os
    | .res d =>
      if d.passed then .inr ⟨o.1, d, st.total_tested + 1⟩
      else runWave (observeFail st o) os

/-- Processes the waves in order; a success inside a wave ends the whole
batch, exhaustion produces the failure JSON of lines 1205-1216. -/
def runWaves : LoopState → List (List (SoaxProxy × TestOutcome)) → GenOutcome
  | st, [] => .failure st.total_tested st.last_fail_reasons (st.last_result.map snapshotOf)
  | st, w :: ws =>
    match runWave st w with
    | .inl st' => runWaves st' ws
    | .inr r => .success r

/-- The state initialised on lines 1155-1157. -/
def initState : LoopState := ⟨0, [], none⟩

/-- The selection loop run on the observation sequences of the
successive waves. -/
def generateLoop (obs : List (List (SoaxProxy × TestOutcome))) : GenOutcome :=
  runWaves initState obs

/-- The slicing `all_proxies[batch_start:batch_start+5]` of line 1160
with `batch_size = 5`. -/
def chunks5 {α : Type} : List α → List (List α)
  | a :: b :: c :: d :: e :: rest => [a, b, c, d, e] :: chunks5 rest
  | [] => []
  | l => [l]

/-- The credential a `GenOutcome` hands to the operator. -/
def credentialsOf : GenOutcome → List SoaxProxy
  | .success r => [r.proxy]
  | .failure _ _ _ => []

/-- The request fields `generate` reads on lines 1100-1104, absent keys
modelled as `none`. -/
structure GenerateRequest where
  target_address : Option String
  mapbox_key : Option String
  max_distance : Option ℝ
  max_attempts : Option ℕ

/-- Models `data.get('max_distance', 5)` (line 1103). -/
def generate_max_distance (data : GenerateRequest) : ℝ :=
  data.max_distance.getD 5

/-- Models `data.get('max_attempts', 10)` (line 1104). -/
def generate_max_attempts (data : GenerateRequest) : ℕ :=
  data.max_attempts.getD 10

/-- The batch generation of lines 1141-1151: `max_attempts` credentials
with identical targeting and independent randomness. -/
def generate_all_proxies (draws : ℕ → ℕ → Fin 62) (package_id password region city : String)
    (max_attempts : ℕ) : List SoaxProxy :=
  (List.range max_attempts).map fun i =>
    build_soax_proxy (draws i) package_id password "us" (some region) (some city) 3600

/-! ### Concrete sample data used by the witness theorems -/

/-- A fixed randomness source (always the first alphabet character). -/
def zeroDraw : ℕ → Fin 62 := fun _ => ⟨0, by decide⟩

/-- A concrete credential. -/
def sampleProxy : SoaxProxy :=
  build_soax_proxy zeroDraw "p1" "pw" "us" (some "South Beach") (some "Miami") 3600

/-- A concrete accepted probe result. -/
noncomputable def sampleAccept : ProbeData :=
  { passed := true, fail_reasons := [], ip := "1.2.3.4", city := "Miami",
    region := "Florida", country := "United States", lat := 25, lon := -80,
    distance := 3, isp := "Comcast", org := "Comcast", as_name := "AS7922 Comcast" }

/-- A concrete mobile-rejected probe result. -/
noncomputable def sampleReject : ProbeData :=
  { passed := false, fail_reasons := ["Mobile ISP: Verizon Wireless"], ip := "1.2.3.4",
    city := "Miami", region := "Florida", country := "United States", lat := 25,
    lon := -80, distance := 3, isp := "Verizon Wireless", org := "Verizon",
    as_name := "AS701 Verizon" }

/-- An all-null metadata payload. -/
def sampleRawEmpty : IpApiRaw :=
  ⟨none, none, none, none, none, none, none, none, none, none, none⟩

/-! ## Theorems -/

/-- Auxiliary: `math.atan2` is non-negative on non-negative inputs. -/
theorem atan2_nonneg {y x : ℝ} (hy : 0 ≤ y) (hx : 0 ≤ x) : 0 ≤ atan2 y x := by
  unfold atan2
  split_ifs with h1 h2 h3 h4
  · have h0 : (0 : ℝ) ≤ y / x := div_nonneg hy h1.le
    have h := Real.arctan_strictMono.monotone h0
    rwa [Real.arctan_zero] at h
  all_goals linarith [Real.pi_pos]

/-- C8: the distance calculator (haversine formula, Earth radius 3959
miles) is non-negative, zero on identical coordinate pairs, and
symmetric — over the idealised reals the symmetry is exact, hence in
particular within any floating-point tolerance. -/
theorem haversine_distance_props (lat1 lon1 lat2 lon2 : ℝ) :
    0 ≤ haversine_distance lat1 lon1 lat2 lon2
    ∧ haversine_distance lat1 lon1 lat1 lon1 = 0
    ∧ haversine_distance lat1 lon1 lat2 lon2 = haversine_distance lat2 lon2 lat1 lon1 := by
  refine ⟨?_, ?_, ?_⟩
  · simp only [haversine_distance]
    exact mul_nonneg (by norm_num)
      (mul_nonneg (by norm_num) (atan2_nonneg (Real.sqrt_nonneg _) (Real.sqrt_nonneg _)))
  · have h01 : atan2 0 1 = 0 := by
      unfold atan2
      rw [if_pos one_pos]
      simp [Real.arctan_zero]
    simp only [haversine_distance, sub_self]
    simp [radians, h01]
  · have hs : ∀ u v : ℝ,
        Real.sin (radians (u - v) / 2) ^ 2 = Real.sin (radians (v - u) / 2) ^ 2 := by
      intro u v
      have h : radians (u - v) = -(radians (v - u)) := by unfold radians; ring
      rw [h, neg_div, Real.sin_neg]
      ring
    simp only [haversine_distance]
    rw [hs lat2 lat1, hs lon2 lon1]
    ring_nf

/-! ### String auxiliary lemmas -/

theorem str_data_append (a b : String) : (a ++ b).data = a.data ++ b.data := by
  cases a; cases b; rfl

theorem str_append_assoc (a b c : String) : a ++ b ++ c = a ++ (b ++ c) := by
  cases a; cases b; cases c
  exact congrArg String.mk (List.append_assoc _ _ _)

theorem str_append_empty (a : String) : a ++ "" = a := by
  cases a
  exact congrArg String.mk (List.append_nil _)

theorem str_ne_of_head {a b : String} (h : a.data.head? ≠ b.data.head?) : a ≠ b :=
  fun e => h (by rw [e])

theorem distanceReason_ne_mobile (d m : ℝ) (isp : String) :
    distanceFailReason d m ≠ mobileFailReason isp := by
  apply str_ne_of_head
  show (some 'D' : Option Char) ≠ some 'M'
  decide

theorem distanceReason_ne_flagged (d m : ℝ) (isp : String) :
    distanceFailReason d m ≠ flaggedFailReason isp := by
  apply str_ne_of_head
  show (some 'D' : Option Char) ≠ some 'F'
  decide

theorem mobileReason_ne_flagged (a b : String) :
    mobileFailReason a ≠ flaggedFailReason b := by
  apply str_ne_of_head
  show (some 'M' : Option Char) ≠ some 'F'
  decide

theorem headMatch_append {sub l : List Char} (t : List Char) (h : headMatch sub l = true) :
    headMatch sub (l ++ t) = true := by
  induction sub generalizing l with
  | nil => rfl
  | cons a as ih =>
    cases l with
    | nil => simp [headMatch] at h
    | cons b bs =>
      rw [List.cons_append]
      unfold headMatch at h ⊢
      rcases Bool.and_eq_true .. |>.mp h with ⟨h1, h2⟩
      exact Bool.and_eq_true .. |>.mpr ⟨h1, ih h2⟩

theorem occursIn_nil_left (l : List Char) : occursIn [] l = true := by
  induction l with
  | nil => rfl
  | cons c t ih => simp [occursIn, headMatch]

theorem occursIn_append_left {sub l : List Char} (t : List Char) (h : occursIn sub l = true) :
    occursIn sub (l ++ t) = true := by
  induction l with
  | nil =>
    have hsub : sub = [] := by
      cases sub with
      | nil => rfl
      | cons a as => simp [occursIn, List.isEmpty] at h
    rw [hsub, List.nil_append]
    exact occursIn_nil_left t
  | cons c l ih =>
    rw [List.cons_append]
    unfold occursIn at h ⊢
    rcases Bool.or_eq_true .. |>.mp h with h1 | h2
    · exact Bool.or_eq_true .. |>.mpr (Or.inl (by rw [← List.cons_append]; exact headMatch_append t h1))
    · exact Bool.or_eq_true .. |>.mpr (Or.inr (ih h2))

theorem headMatch_self_append (sub post : List Char) : headMatch sub (sub ++ post) = true := by
  induction sub with
  | nil => rfl
  | cons a as ih => simp [headMatch, ih]

theorem occursIn_extract (pre sub post : List Char) :
    occursIn sub (pre ++ (sub ++ post)) = true := by
  induction pre with
  | nil =>
    rw [List.nil_append]
    cases sub with
    | nil => exact occursIn_nil_left _
    | cons a as =>
      unfold occursIn
      exact Bool.or_eq_true .. |>.mpr (Or.inl (headMatch_self_append _ _))
  | cons p pre ih =>
    rw [List.cons_append]
    unfold occursIn
    exact Bool.or_eq_true .. |>.mpr (Or.inr ih)

theorem strContains_extract (pre sub post : String) :
    strContains (pre ++ sub ++ post) sub = true := by
  unfold strContains
  rw [str_data_append, str_data_append, List.append_assoc]
  exact occursIn_extract _ _ _

theorem strContains_middle (a b c : String) : strContains (a ++ (b ++ c)) b = true := by
  rw [← str_append_assoc]
  exact strContains_extract a b c

theorem strContains_at_end (a b : String) : strContains (a ++ b) b = true := by
  have h := strContains_extract a b ""
  rwa [str_append_empty] at h

theorem strContains_append_left (a b sub : String) (h : strContains a sub = true) :
    strContains (a ++ b) sub = true := by
  unfold strContains at h ⊢
  rw [str_data_append]
  exact occursIn_append_left _ h

/-- Auxiliary: the `is_mobile` condition spelt out as the claim spells
it. -/
theorem mobileCheck_iff (isp as_name : String) (mob : Bool) :
    mobileCheck isp as_name mob = true ↔
      (mob = true
        ∨ (∃ kw ∈ mobile_keywords,
            strContains (pyLower isp) kw = true ∨ strContains (pyLower as_name) kw = true)
        ∨ (∃ carrier ∈ mobile_carriers,
            strContains (pyLower isp) carrier = true
              ∨ strContains (pyLower as_name) carrier = true)) := by
  unfold mobileCheck
  simp [List.any_eq_true, Bool.or_eq_true, or_assoc]

/-! ### The acceptance-policy claims -/

/-- C2: the post-metadata policy stage of `test_proxy` applies its
checks in the fixed order distance, mobile, flagged; the first failing
check ends evaluation (the rejection is the same whatever the
classification inputs say once the distance check fails, and the
mobile rejection is recorded whether or not the flagged check would
also fire); at most one fail reason is ever recorded; a probe clearing
all three checks is accepted with an empty fail-reason list. -/
theorem policy_ordered_checks (ip city region country : String) (lat lon : ℝ)
    (isp org as_name isp2 org2 as_name2 : String) (mob mob2 : Bool) (d md : ℝ) :
    (applyChecks ip city region country lat lon isp org as_name mob d md).fail_reasons.length ≤ 1
    ∧ (d > md →
        (applyChecks ip city region country lat lon isp org as_name mob d md).fail_reasons
            = [distanceFailReason d md]
        ∧ (applyChecks ip city region country lat lon isp org as_name mob d md).passed = false
        ∧ (applyChecks ip city region country lat lon isp2 org2 as_name2 mob2 d md).fail_reasons
            = [distanceFailReason d md])
    ∧ (¬ d > md → mobileCheck isp as_name mob = true →
        (applyChecks ip city region country lat lon isp org as_name mob d md).fail_reasons
            = [mobileFailReason isp]
        ∧ (applyChecks ip city region country lat lon isp org as_name mob d md).passed = false)
    ∧ (¬ d > md → mobileCheck isp as_name mob = false → flaggedCheck isp as_name = true →
        (applyChecks ip city region country lat lon isp org as_name mob d md).fail_reasons
            = [flaggedFailReason isp]
        ∧ (applyChecks ip city region country lat lon isp org as_name mob d md).passed = false)
    ∧ (¬ d > md → mobileCheck isp as_name mob = false → flaggedCheck isp as_name = false →
        (applyChecks ip city region country lat lon isp org as_name mob d md).passed = true
        ∧ (applyChecks ip city region country lat lon isp org as_name mob d md).fail_reasons = []) := by
  refine ⟨?_, ?_, ?_, ?_, ?_⟩
  · simp only [applyChecks]
    split_ifs <;> simp
  · intro h
    simp only [applyChecks, if_pos h]
    simp
  · intro h hm
    simp only [applyChecks, if_neg h, hm, if_pos]
    simp
  · intro h hm hf
    simp only [applyChecks, if_neg h, hm, hf]
    simp
  · intro h hm hf
    simp only [applyChecks, if_neg h, hm, hf]
    simp

/-- Witness for C2 at a concrete rejected-for-distance input. -/
theorem policy_ordered_checks_witness :
    (6 : ℝ) > 5
    ∧ (applyChecks "1.2.3.4" "Miami" "FL" "US" 0 0 "Comcast" "Comcast" "AS7922" false 6 5).fail_reasons
        = [distanceFailReason 6 5] :=
  ⟨by norm_num,
    ((policy_ordered_checks "1.2.3.4" "Miami" "FL" "US" 0 0 "Comcast" "Comcast" "AS7922"
      "x" "y" "z" false false 6 5).2.1 (by norm_num)).1⟩

/-- C5: the distance check records its rejection exactly when the
computed distance strictly exceeds the maximum, the reason text
contains both the rendered measured distance and the rendered maximum,
and a request without a `max_distance` key gets the default of 5
miles. -/
theorem distance_check_exact (ip city region country : String) (lat lon : ℝ)
    (isp org as_name : String) (mob : Bool) (d md : ℝ) (req : GenerateRequest) :
    ((applyChecks ip city region country lat lon isp org as_name mob d md).fail_reasons
        = [distanceFailReason d md] ↔ d > md)
    ∧ strContains (distanceFailReason d md) (fmtFixed1 d) = true
    ∧ strContains (distanceFailReason d md) (pyStrNum md) = true
    ∧ (req.max_distance = none → generate_max_distance req = 5) := by
  refine ⟨⟨?_, ?_⟩, ?_, ?_, ?_⟩
  · intro h
    by_contra hgt
    simp only [applyChecks, if_neg hgt] at h
    split_ifs at h with h1 h2 <;> simp at h
    · exact distanceReason_ne_mobile d md isp (h.symm)
    · exact distanceReason_ne_flagged d md isp (h.symm)
  · intro h
    simp only [applyChecks, if_pos h]
  · unfold distanceFailReason
    simp only [str_append_assoc]
    exact strContains_middle _ _ _
  · unfold distanceFailReason
    simp only [← str_append_assoc]
    exact strContains_extract _ _ _
  · intro h
    simp [generate_max_distance, h]

/-- Witness for C5 at a concrete input (distance 6, maximum 5) and at a
request with no `max_distance` key. -/
theorem distance_check_exact_witness :
    ((6 : ℝ) > 5)
    ∧ (applyChecks "1.2.3.4" "Miami" "FL" "US" 0 0 "Comcast" "Comcast" "AS7922" false 6 5).fail_reasons
        = [distanceFailReason 6 5]
    ∧ generate_max_distance ⟨none, none, none, none⟩ = 5 :=
  ⟨by norm_num,
    (distance_check_exact "1.2.3.4" "Miami" "FL" "US" 0 0 "Comcast" "Comcast" "AS7922"
      false 6 5 ⟨none, none, none, none⟩).1.mpr (by norm_num),
    (distance_check_exact "1.2.3.4" "Miami" "FL" "US" 0 0 "Comcast" "Comcast" "AS7922"
      false 6 5 ⟨none, none, none, none⟩).2.2.2 rfl⟩

/-- C6: for a probe that passes the distance check, the mobile rejection
is recorded exactly when the provider mobile flag is set or the
lower-cased ISP or AS name contains one of the fixed keywords or named
carriers, and the recorded reason names the offending ISP. -/
theorem mobile_check_exact (ip city region country : String) (lat lon : ℝ)
    (isp org as_name : String) (mob : Bool) (d md : ℝ) (hd : ¬ d > md) :
    ((applyChecks ip city region country lat lon isp org as_name mob d md).fail_reasons
        = [mobileFailReason isp]
      ↔ (mob = true
          ∨ (∃ kw ∈ mobile_keywords,
              strContains (pyLower isp) kw = true ∨ strContains (pyLower as_name) kw = true)
          ∨ (∃ carrier ∈ mobile_carriers,
              strContains (pyLower isp) carrier = true
                ∨ strContains (pyLower as_name) carrier = true)))
    ∧ strContains (mobileFailReason isp) isp = true := by
  constructor
  · rw [← mobileCheck_iff isp as_name mob]
    constructor
    · intro h
      by_contra hm
      have hm' : mobileCheck isp as_name mob = false := by
        cases hc : mobileCheck isp as_name mob
        · rfl
        · exact absurd hc hm
      cases hf : flaggedCheck isp as_name
      · simp only [applyChecks, if_neg hd, hm', hf] at h
        simp at h
      · simp only [applyChecks, if_neg hd, hm', hf] at h
        simp at h
        exact mobileReason_ne_flagged isp isp h.symm
    · intro h
      simp only [applyChecks, if_neg hd, h]
      simp
  · unfold mobileFailReason
    exact strContains_at_end _ _

/-- Witness for C6 at the concrete ISP "Verizon Wireless" within
distance. -/
theorem mobile_check_exact_witness :
    ¬ (1 : ℝ) > 5
    ∧ (applyChecks "1.2.3.4" "Miami" "FL" "US" 0 0 "Verizon Wireless" "V" "AS701" false 1 5).fail_reasons
        = [mobileFailReason "Verizon Wireless"] :=
  ⟨by norm_num,
    (mobile_check_exact "1.2.3.4" "Miami" "FL" "US" 0 0 "Verizon Wireless" "V" "AS701"
      false 1 5 (by norm_num)).1.mpr
      (Or.inr (Or.inl ⟨"wireless", by decide, Or.inl (by decide)⟩))⟩

/-! ### The probe error-path claims -/

/-- C4 (amended): exit-IP discovery tries the primary service and, only
if that call fails, exactly one fallback (a primary success makes the
fallback response irrelevant, and a fallback success behaves like a
primary success); when both fail the probe's result is an Error with
the fixed message "Connection timeout" (the underlying transport error
is not propagated), and the metadata response is never consulted for
that probe — no metadata lookup or policy check happens. -/
theorem ip_discovery_fallback (ps : String) (tl tn md : ℝ)
    (groups : String × String × String × String) :
    (∀ (ip : String) (fb fb2 : Option String) (api : Except String IpApiRaw),
        test_proxy ps tl tn md ⟨some ip, fb, api⟩ = test_proxy ps tl tn md ⟨some ip, fb2, api⟩)
    ∧ (∀ (ip : String) (api : Except String IpApiRaw),
        test_proxy ps tl tn md ⟨none, some ip, api⟩ = test_proxy ps tl tn md ⟨some ip, none, api⟩)
    ∧ (parseProxyString ps = some groups →
        ∀ api api2 : Except String IpApiRaw,
          test_proxy ps tl tn md ⟨none, none, api⟩ = .err (some "Connection timeout")
          ∧ test_proxy ps tl tn md ⟨none, none, api⟩ = test_proxy ps tl tn md ⟨none, none, api2⟩) := by
  refine ⟨?_, ?_, ?_⟩
  · intro ip fb fb2 api
    cases hp : parseProxyString ps <;> simp [test_proxy, hp]
  · intro ip api
    cases hp : parseProxyString ps <;> simp [test_proxy, hp]
  · intro hp api api2
    constructor <;> simp [test_proxy, hp]

/-- Witness for the amended C4 at a concrete parseable credential. -/
theorem ip_discovery_fallback_witness :
    parseProxyString "user:pass@host:5000" = some ("user", "pass", "host", "5000")
    ∧ test_proxy "user:pass@host:5000" 0 0 5 ⟨none, none, .ok sampleRawEmpty⟩
        = .err (some "Connection timeout") :=
  ⟨rfl, ((ip_discovery_fallback "user:pass@host:5000" 0 0 5
      ("user", "pass", "host", "5000")).2.2 rfl (.ok sampleRawEmpty) (.ok sampleRawEmpty)).1⟩

/-- Counterexample to C4 as stated: when both discovery calls fail the
recorded message is the fixed text "Connection timeout", which is not
the claimed "connection timeout". -/
theorem ip_discovery_message_counterexample :
    test_proxy "user:pass@host:5000" 0 0 5 ⟨none, none, .ok sampleRawEmpty⟩
        = .err (some "Connection timeout")
    ∧ (some "Connection timeout" : Option String) ≠ some "connection timeout" :=
  ⟨rfl, by decide⟩

/-- C9: on a non-failure metadata response every missing or null string
field among city, region, country, ISP, organisation and AS name
defaults to "Unknown" and missing or null coordinates default to 0, and
exactly these defaulted values are what the distance computation and
the acceptance policy receive. -/
theorem metadata_defaults (ps : String) (tl tn md : ℝ) (ip : String) (fb : Option String)
    (raw : IpApiRaw) (groups : String × String × String × String)
    (hps : parseProxyString ps = some groups) (hip : ¬ ip = "")
    (hst : ¬ raw.status = some "fail") :
    test_proxy ps tl tn md ⟨some ip, fb, .ok raw⟩
      = .res (applyChecks ip (defaultStr raw.city) (defaultStr raw.regionName)
          (defaultStr raw.country) (raw.lat.getD 0) (raw.lon.getD 0)
          (defaultStr raw.isp) (defaultStr raw.org) (defaultStr raw.as_name)
          (raw.mobile.getD false)
          (haversine_distance tl tn (raw.lat.getD 0) (raw.lon.getD 0)) md)
    ∧ defaultStr none = "Unknown"
    ∧ (none : Option ℝ).getD 0 = 0
    ∧ (none : Option Bool).getD false = false := by
  refine ⟨?_, rfl, rfl, rfl⟩
  simp [test_proxy, hps, hip, hst]

/-- Witness for C9 at an all-null metadata payload. -/
theorem metadata_defaults_witness :
    parseProxyString "user:pass@host:5000" = some ("user", "pass", "host", "5000")
    ∧ ¬ "1.2.3.4" = ""
    ∧ ¬ sampleRawEmpty.status = some "fail"
    ∧ test_proxy "user:pass@host:5000" 0 0 5 ⟨some "1.2.3.4", none, .ok sampleRawEmpty⟩
        = .res (applyChecks "1.2.3.4" "Unknown" "Unknown" "Unknown" 0 0 "Unknown" "Unknown"
            "Unknown" false (haversine_distance 0 0 0 0) 5) :=
  ⟨rfl, by decide, by decide,
    (metadata_defaults "user:pass@host:5000" 0 0 5 "1.2.3.4" none sampleRawEmpty
      ("user", "pass", "host", "5000") rfl (by decide) (by decide)).1⟩

/-! ### The credential-synthesizer claim -/

/-- C7: the synthesizer builds a 16-character session id whose
characters are drawn from the 62-character alphanumeric alphabet (the
draw is an arbitrary index into that alphabet, uniform by the
semantics of `random.choice`); the username joins, with the fixed
delimiter "-", the ordered labelled fields package id, lower-cased
country, normalised region and city when present, session id and
session lifetime; the connection string is
`username:password@host:port`; and for package id "p1", country "us",
region "South Beach", city "Miami" the username contains the four
literal fragments the claim lists. -/
theorem credential_synthesizer (draw : ℕ → Fin 62) (pid pw r c : String)
    (hr : ¬ r = "") (hc : ¬ c = "") :
    (generate_session_id draw 16).length = 16
    ∧ (∀ ch ∈ (generate_session_id draw 16).data, ch ∈ sessionChars)
    ∧ sessionChars.length = 62
    ∧ sessionChars.Nodup
    ∧ (build_soax_proxy draw pid pw "us" (some r) (some c) 3600).username
        = pyJoin "-" ["package-" ++ pid, "country-us", "region-" ++ cleanPlus r,
            "city-" ++ cleanPlus c, "sessionid-" ++ generate_session_id draw 16,
            "sessionlength-3600"]
    ∧ (build_soax_proxy draw pid pw "us" (some r) (some c) 3600).full_string
        = (build_soax_proxy draw pid pw "us" (some r) (some c) 3600).username
            ++ ":" ++ pw ++ "@" ++ "proxy.soax.com" ++ ":" ++ "5000"
    ∧ strContains (build_soax_proxy draw "p1" pw "us" (some "South Beach") (some "Miami")
        3600).username "package-p1" = true
    ∧ strContains (build_soax_proxy draw "p1" pw "us" (some "South Beach") (some "Miami")
        3600).username "country-us" = true
    ∧ strContains (build_soax_proxy draw "p1" pw "us" (some "South Beach") (some "Miami")
        3600).username "region-south+beach" = true
    ∧ strContains (build_soax_proxy draw "p1" pw "us" (some "South Beach") (some "Miami")
        3600).username "city-miami" = true := by
  have hu : (build_soax_proxy draw "p1" pw "us" (some "South Beach") (some "Miami")
      3600).username
      = "package-p1-country-us-region-south+beach-city-miami-sessionid-"
          ++ (generate_session_id draw 16 ++ "-sessionlength-3600") := rfl
  refine ⟨?_, ?_, by decide, by decide, ?_, ?_, ?_, ?_, ?_, ?_⟩
  · simp [generate_session_id, String.length]
  · intro ch h
    simp only [generate_session_id] at h
    rw [List.mem_map] at h
    rcases h with ⟨i, _, hi⟩
    rw [← hi]
    exact List.get_mem _ _ _
  · simp only [build_soax_proxy]
    rw [if_pos (show ("us" : String) ≠ "" by decide)]
    rw [if_pos (show truthyStr (some r) = true by simp [truthyStr, hr])]
    rw [if_pos (show truthyStr (some c) = true by simp [truthyStr, hc])]
    rfl
  · simp only [build_soax_proxy]
    simp only [str_append_assoc]
    rfl
  · rw [hu]
    exact strContains_append_left _ _ _ (by decide)
  · rw [hu]
    exact strContains_append_left _ _ _ (by decide)
  · rw [hu]
    exact strContains_append_left _ _ _ (by decide)
  · rw [hu]
    exact strContains_append_left _ _ _ (by decide)

/-- Witness for C7 at the concrete targeting of the claim. -/
theorem credential_synthesizer_witness :
    ¬ "South Beach" = "" ∧ ¬ "Miami" = ""
    ∧ strContains (build_soax_proxy zeroDraw "p1" "pw" "us" (some "South Beach") (some "Miami")
        3600).username "region-south+beach" = true :=
  ⟨by decide, by decide,
    (credential_synthesizer zeroDraw "p1" "pw" "South Beach" "Miami"
      (by decide) (by decide)).2.2.2.2.2.2.2.2.1⟩

/-! ### Selection-loop auxiliary lemmas -/

theorem runWave_accept_exists (st : LoopState) (w : List (SoaxProxy × TestOutcome))
    (h : ∃ o ∈ w, isAccepted o = true) : ∃ r, runWave st w = .inr r := by
  induction w generalizing st with
  | nil => rcases h with ⟨o, ho, _⟩; simp at ho
  | cons o os ih =>
    rcases h with ⟨o', ho', ha⟩
    rcases List.mem_cons.mp ho' with he | ht
    · subst he
      cases h2 : o'.2 with
      | err m => rw [isAccepted, h2] at ha; exact absurd ha (by simp)
      | res d =>
        have hd : d.passed = true := by rw [isAccepted, h2] at ha; exact ha
        exact ⟨⟨o'.1, d, st.total_tested + 1⟩, by simp [runWave, h2, hd]⟩
    · cases h2 : o.2 with
      | err m =>
        obtain ⟨r, hr⟩ := ih (observeFail st o) ⟨o', ht, ha⟩
        exact ⟨r, by simp [runWave, h2, hr]⟩
      | res d =>
        cases hd : d.passed
        · obtain ⟨r, hr⟩ := ih (observeFail st o) ⟨o', ht, ha⟩
          exact ⟨r, by simp [runWave, h2, hd, hr]⟩
        · exact ⟨⟨o.1, d, st.total_tested + 1⟩, by simp [runWave, h2, hd]⟩

theorem runWaves_append_accept (st : LoopState)
    (pre : List (List (SoaxProxy × TestOutcome))) (w : List (SoaxProxy × TestOutcome))
    (rest : List (List (SoaxProxy × TestOutcome))) (h : ∃ o ∈ w, isAccepted o = true) :
    runWaves st (pre ++ w :: rest) = runWaves st (pre ++ [w]) := by
  induction pre generalizing st with
  | nil =>
    obtain ⟨r, hr⟩ := runWave_accept_exists st w h
    simp [runWaves, hr]
  | cons v pre ih =>
    rw [List.cons_append, List.cons_append]
    cases hv : runWave st v <;> simp [runWaves, hv]
    exact ih _

theorem runWave_first_accept (st : LoopState) (a : List (SoaxProxy × TestOutcome))
    (p : SoaxProxy) (d : ProbeData) (b : List (SoaxProxy × TestOutcome))
    (hd : d.passed = true) (hna : ∀ o ∈ a, isAccepted o = false) :
    runWave st (a ++ (p, TestOutcome.res d) :: b)
      = .inr ⟨p, d, st.total_tested + a.length + 1⟩ := by
  induction a generalizing st with
  | nil => simp [runWave, hd]
  | cons o a ih =>
    have ho : isAccepted o = false := hna o (by simp)
    have hrest : ∀ o' ∈ a, isAccepted o' = false := fun o' h' => hna o' (by simp [h'])
    have hcount : (observeFail st o).total_tested + a.length + 1
        = st.total_tested + (o :: a).length + 1 := by
      simp [observeFail]
      omega
    cases h2 : o.2 with
    | err m =>
      rw [List.cons_append]
      simp only [runWave, h2]
      rw [ih (observeFail st o) hrest, hcount]
    | res d' =>
      have hd' : d'.passed = false := by rw [isAccepted, h2] at ho; exact ho
      rw [List.cons_append]
      simp only [runWave, h2, hd']
      simp only [Bool.false_eq_true, if_false]
      rw [ih (observeFail st o) hrest, hcount]

theorem runWave_no_accept (st : LoopState) (w : List (SoaxProxy × TestOutcome))
    (h : ∀ o ∈ w, isAccepted o = false) :
    runWave st w = .inl (w.foldl observeFail st) := by
  induction w generalizing st with
  | nil => rfl
  | cons o os ih =>
    have ho := h o (by simp)
    have hrest : ∀ o' ∈ os, isAccepted o' = false := fun o' h' => h o' (by simp [h'])
    cases h2 : o.2 with
    | err m => simp [runWave, h2, ih _ hrest]
    | res d =>
      have hd : d.passed = false := by rw [isAccepted, h2] at ho; exact ho
      simp [runWave, h2, hd, ih _ hrest]

theorem runWaves_no_accept (st : LoopState) (obs : List (List (SoaxProxy × TestOutcome)))
    (h : ∀ w ∈ obs, ∀ o ∈ w, isAccepted o = false) :
    runWaves st obs =
      .failure ((obs.flatten.foldl observeFail st).total_tested)
        ((obs.flatten.foldl observeFail st).last_fail_reasons)
        (((obs.flatten.foldl observeFail st).last_result).map snapshotOf) := by
  induction obs generalizing st with
  | nil => rfl
  | cons w ws ih =>
    have hw := h w (by simp)
    have hws : ∀ w' ∈ ws, ∀ o ∈ w', isAccepted o = false := fun w' h' => h w' (by simp [h'])
    simp only [runWaves, runWave_no_accept st w hw]
    rw [ih _ hws]
    simp [List.foldl_append]

theorem foldl_observeFail_total (l : List (SoaxProxy × TestOutcome)) (st : LoopState) :
    (l.foldl observeFail st).total_tested = st.total_tested + l.length := by
  induction l generalizing st with
  | nil => simp
  | cons o l ih =>
    rw [List.foldl_cons, ih]
    simp [observeFail]
    omega

theorem foldl_observeFail_last (l : List (SoaxProxy × TestOutcome)) (st : LoopState)
    (hne : l ≠ []) :
    (l.foldl observeFail st).last_fail_reasons = reasonsOfOutcome (l.getLast hne).2
    ∧ (l.foldl observeFail st).last_result = some (l.getLast hne).2 := by
  induction l generalizing st with
  | nil => exact absurd rfl hne
  | cons o l ih =>
    cases l with
    | nil => simp [List.foldl, observeFail, List.getLast]
    | cons o2 l2 =>
      have hne2 : o2 :: l2 ≠ [] := by simp
      rw [List.foldl_cons, List.getLast_cons hne2]
      exact ih _ hne2

theorem chunks5_flatten {α : Type} : ∀ l : List α, (chunks5 l).flatten = l
  | [] => by simp [chunks5]
  | [a] => by simp [chunks5]
  | [a, b] => by simp [chunks5]
  | [a, b, c] => by simp [chunks5]
  | [a, b, c, d] => by simp [chunks5]
  | a :: b :: c :: d :: e :: rest => by
    simp [chunks5, chunks5_flatten rest]

theorem flatten_perm_of_forall₂ {α : Type} {l₁ l₂ : List (List α)}
    (h : List.Forall₂ (fun u v => List.Perm u v) l₁ l₂) : l₁.flatten.Perm l₂.flatten := by
  induction h with
  | nil => exact List.Perm.refl _
  | cons h1 _h2 ih =>
    simp only [List.flatten_cons]
    exact h1.append ih

/-! ### The selection-loop claims -/

/-- C1: the loop hands out at most one credential; a wave containing an
accepted verdict makes every later wave irrelevant (the loop result
ignores everything after that wave — the whole batch is exited, not
just the current wave); and within a wave the first accepted result
observed is returned immediately with the attempt count at that point,
whatever results would still have followed. -/
theorem selection_loop_first_accept :
    (∀ (st : LoopState) (pre : List (List (SoaxProxy × TestOutcome)))
        (w : List (SoaxProxy × TestOutcome)) (rest : List (List (SoaxProxy × TestOutcome))),
        (∃ o ∈ w, isAccepted o = true) →
        runWaves st (pre ++ w :: rest) = runWaves st (pre ++ [w]))
    ∧ (∀ (st : LoopState) (a : List (SoaxProxy × TestOutcome)) (p : SoaxProxy) (d : ProbeData)
        (b : List (SoaxProxy × TestOutcome)),
        d.passed = true → (∀ o ∈ a, isAccepted o = false) →
        runWave st (a ++ (p, TestOutcome.res d) :: b)
          = .inr ⟨p, d, st.total_tested + a.length + 1⟩)
    ∧ (∀ obs, (credentialsOf (generateLoop obs)).length ≤ 1) := by
  refine ⟨runWaves_append_accept, runWave_first_accept, ?_⟩
  intro obs
  cases h : generateLoop obs <;> simp [credentialsOf]

/-- Witness for C1: a first-wave accept makes a rejecting second wave
irrelevant. -/
theorem selection_loop_first_accept_witness :
    (∃ o ∈ [(sampleProxy, TestOutcome.res sampleAccept)], isAccepted o = true)
    ∧ runWaves initState
        ([] ++ [(sampleProxy, TestOutcome.res sampleAccept)]
          :: [[(sampleProxy, TestOutcome.res sampleReject)]])
      = runWaves initState ([] ++ [[(sampleProxy, TestOutcome.res sampleAccept)]]) :=
  ⟨⟨(sampleProxy, TestOutcome.res sampleAccept), by simp, rfl⟩,
    selection_loop_first_accept.1 initState [] _ _
      ⟨(sampleProxy, TestOutcome.res sampleAccept), by simp, rfl⟩⟩

/-- Auxiliary: general form of the exhaustion path — with no accepted
verdict anywhere, the loop reports the number of observations, the
fail-reason list derived from the last observation, and the snapshot of
the last observation. -/
theorem loop_exhaustion_general (obs : List (List (SoaxProxy × TestOutcome)))
    (hno : ∀ w ∈ obs, ∀ o ∈ w, isAccepted o = false) (hne : obs.flatten ≠ []) :
    generateLoop obs = .failure obs.flatten.length
      (reasonsOfOutcome (obs.flatten.getLast hne).2)
      (some (snapshotOf (obs.flatten.getLast hne).2)) := by
  unfold generateLoop
  rw [runWaves_no_accept initState obs hno, foldl_observeFail_total,
    (foldl_observeFail_last obs.flatten initState hne).1,
    (foldl_observeFail_last obs.flatten initState hne).2]
  simp [initState]

/-- C3 (amended): if every wave is exhausted without an accepted
verdict, the loop reports the total number of probes completed, the
fail-reason list derived from the last observation (a Rejected's own
fail reasons, or for an Error a one-element list with its message,
"Connection failed" only when the error carries no message — not the
claimed unconditional generic text), and the ip/city/region/isp/distance
snapshot of the last observation; and when every probe of the batch is
Rejected with one same reason, the reported reasons are exactly that
reason and the attempt count is the full batch size. -/
theorem exhaustion_failure_outcome :
    (∀ (obs : List (List (SoaxProxy × TestOutcome)))
        (_hno : ∀ w ∈ obs, ∀ o ∈ w, isAccepted o = false) (hne : obs.flatten ≠ []),
        generateLoop obs = .failure obs.flatten.length
          (reasonsOfOutcome (obs.flatten.getLast hne).2)
          (some (snapshotOf (obs.flatten.getLast hne).2)))
    ∧ (∀ (trials : List (SoaxProxy × TestOutcome))
        (obs : List (List (SoaxProxy × TestOutcome))) (r : String),
        List.Forall₂ (fun u v => List.Perm u v) obs (chunks5 trials) →
        trials ≠ [] →
        (∀ t ∈ trials, ∃ dd, t.2 = TestOutcome.res dd ∧ dd.passed = false
          ∧ dd.fail_reasons = [r]) →
        ∃ snap, generateLoop obs = .failure trials.length [r] (some snap)) := by
  refine ⟨loop_exhaustion_general, ?_⟩
  intro trials obs r hperm htne hall
  have hjoin : obs.flatten.Perm trials := by
    have h := flatten_perm_of_forall₂ hperm
    rwa [chunks5_flatten trials] at h
  have hno : ∀ w ∈ obs, ∀ o ∈ w, isAccepted o = false := by
    intro w hw o ho
    have hmem : o ∈ trials := hjoin.mem_iff.mp (List.mem_flatten.mpr ⟨w, hw, ho⟩)
    obtain ⟨dd, h2, hp, _⟩ := hall o hmem
    rw [isAccepted, h2]
    exact hp
  have hne : obs.flatten ≠ [] := by
    intro hnil
    apply htne
    have hlen := hjoin.length_eq
    rw [hnil] at hlen
    exact List.length_eq_zero.mp hlen.symm
  refine ⟨snapshotOf (obs.flatten.getLast hne).2, ?_⟩
  rw [loop_exhaustion_general obs hno hne, hjoin.length_eq]
  have hlast : reasonsOfOutcome (obs.flatten.getLast hne).2 = [r] := by
    have hmem : (obs.flatten.getLast hne) ∈ trials :=
      hjoin.mem_iff.mp (List.getLast_mem hne)
    obtain ⟨dd, h2, _, hfr⟩ := hall _ hmem
    rw [h2, reasonsOfOutcome, hfr]
  rw [hlast]

/-- Witness for the amended C3: a one-element all-mobile batch. -/
theorem exhaustion_failure_outcome_witness :
    ([(sampleProxy, TestOutcome.res sampleReject)] : List (SoaxProxy × TestOutcome)) ≠ []
    ∧ ∃ snap, generateLoop [[(sampleProxy, TestOutcome.res sampleReject)]]
        = .failure 1 ["Mobile ISP: Verizon Wireless"] (some snap) :=
  ⟨List.cons_ne_nil _ _, by
    have h := exhaustion_failure_outcome.2 [(sampleProxy, TestOutcome.res sampleReject)]
      [[(sampleProxy, TestOutcome.res sampleReject)]] "Mobile ISP: Verizon Wireless"
      (List.Forall₂.cons (List.Perm.refl _) List.Forall₂.nil)
      (List.cons_ne_nil _ _)
      (fun t ht => by
        rw [List.mem_singleton] at ht
        subst ht
        exact ⟨sampleReject, rfl, rfl, rfl⟩)
    exact h⟩

/-- Counterexample to C3 as stated: when the last observation is an
Error, the loop reports that error's own message, not the claimed
generic "connection failed". -/
theorem loop_error_reasons_counterexample :
    generateLoop [[(sampleProxy, TestOutcome.err (some "Connection timeout"))]]
      = .failure 1 ["Connection timeout"] (some ⟨none, none, none, none, none⟩)
    ∧ (["Connection timeout"] : List String) ≠ ["connection failed"]
    ∧ (["Connection timeout"] : List String) ≠ ["Connection failed"] :=
  ⟨rfl, by decide, by decide⟩

/-! ### Parse-model auxiliary lemmas -/

theorem toLower_ne_newline {c : Char} (h : c ≠ '\n') : c.toLower ≠ '\n' := by
  intro he
  apply h
  have he2 : (if c.toNat ≥ 65 ∧ c.toNat ≤ 90 then Char.ofNat (c.toNat + 32) else c) = '\n' := he
  clear he
  split_ifs at he2 with hc
  · exfalso
    have hval : (Char.ofNat (c.toNat + 32)).toNat = c.toNat + 32 := by
      have hv : (c.toNat + 32).isValidChar := Or.inl (by omega)
      rw [Char.ofNat, dif_pos hv]
      rfl
    have h2 := congrArg Char.toNat he2
    rw [hval] at h2
    have h3 : ('\n').toNat = 10 := rfl
    rw [h3] at h2
    omega
  · exact he2

theorem noNL_of_not_mem {l : List Char} (h : '\n' ∉ l) : noNL l = true := by
  unfold noNL
  rw [List.all_eq_true]
  intro c hc
  simp only [Bool.not_eq_true', beq_eq_false_iff_ne]
  intro he
  exact h (he ▸ hc)

theorem str_mk_data (s : String) : String.mk s.data = s := by cases s; rfl

theorem noNL_append {l₁ l₂ : List Char} (h1 : noNL l₁ = true) (h2 : noNL l₂ = true) :
    noNL (l₁ ++ l₂) = true := by
  unfold noNL at *
  rw [List.all_append, h1, h2]
  rfl

theorem noNL_cleanPlus (r : String) (h : '\n' ∉ r.data) : noNL (cleanPlus r).data = true := by
  unfold cleanPlus pyLower
  apply noNL_of_not_mem
  intro hmem
  simp only [List.mem_map] at hmem
  obtain ⟨c1, hc1, he1⟩ := hmem
  obtain ⟨c0, hc0, he0⟩ := hc1
  by_cases hsp : c0.toLower = ' '
  · rw [← he0, hsp] at he1
    simp at he1
  · rw [← he0] at he1
    rw [if_neg hsp] at he1
    exact toLower_ne_newline (fun e => h (e ▸ hc0)) he1

theorem lastSplit_boundary (ch : Char) (p : List Char → Bool) (l₁ l₂ : List Char)
    (hp : p l₂ = true) (hn : lastSplit ch p l₂ = none) :
    lastSplit ch p (l₁ ++ ch :: l₂) = some (l₁, l₂) := by
  induction l₁ with
  | nil =>
    rw [List.nil_append]
    unfold lastSplit
    rw [hn]
    simp [hp]
  | cons x l₁ ih =>
    rw [List.cons_append]
    unfold lastSplit
    rw [ih]

theorem lastSplit_none (ch : Char) (p : List Char → Bool) (l : List Char)
    (h : ∀ l₁ l₂, l = l₁ ++ ch :: l₂ → p l₂ = false) : lastSplit ch p l = none := by
  induction l with
  | nil => rfl
  | cons x xs ih =>
    unfold lastSplit
    rw [ih (fun l₁ l₂ e => h (x :: l₁) l₂ (by rw [e, List.cons_append]))]
    cases hx : (x == ch)
    · simp
    · have hxc : x = ch := by
        have := eq_of_beq hx
        exact this
      have hp : p xs = false := h [] xs (by rw [hxc, List.nil_append])
      simp [hp]

theorem append_cons_unique {ch : Char} {A B l₁ l₂ : List Char}
    (hA : ch ∉ A) (hB : ch ∉ B) (h : A ++ ch :: B = l₁ ++ ch :: l₂) :
    l₁ = A ∧ l₂ = B := by
  induction A generalizing l₁ with
  | nil =>
    cases l₁ with
    | nil =>
      simp only [List.nil_append] at h
      exact ⟨rfl, (List.cons.injEq .. |>.mp h).2.symm⟩
    | cons y l₁' =>
      simp only [List.nil_append, List.cons_append] at h
      obtain ⟨hy, hrest⟩ := List.cons.injEq .. |>.mp h
      exfalso
      apply hB
      rw [hrest]
      exact List.mem_append.mpr (Or.inr (List.mem_cons_self _ _))
  | cons a A' ih =>
    cases l₁ with
    | nil =>
      simp only [List.cons_append, List.nil_append] at h
      obtain ⟨ha, _⟩ := List.cons.injEq .. |>.mp h
      exact absurd (ha ▸ List.mem_cons_self a A') hA
    | cons y l₁' =>
      simp only [List.cons_append] at h
      obtain ⟨hy, hrest⟩ := List.cons.injEq .. |>.mp h
      have hA' : ch ∉ A' := fun hm => hA (List.mem_cons_of_mem _ hm)
      obtain ⟨h1, h2⟩ := ih hA' hrest
      exact ⟨by rw [h1, hy], h2⟩

theorem stripTrailNL_concat_ne {l : List Char} {c : Char} (h : ¬ c = '\n') :
    stripTrailNL (l ++ [c]) = l ++ [c] := by
  unfold stripTrailNL
  rw [List.getLast?_concat]
  simp [h]

/-- Auxiliary: the greedy parse recovers the four groups from any
credential string whose username part is non-empty and newline-free and
whose password part is non-empty and free of ':', '@' and newlines. -/
theorem parse_roundtrip_generic (U P : String) (hU : U.data ≠ []) (hUn : noNL U.data = true)
    (hP : P.data ≠ []) (hPc : ∀ ch ∈ P.data, ch ≠ ':' ∧ ch ≠ '@' ∧ ch ≠ '\n') :
    parseProxyString (U ++ ":" ++ P ++ "@proxy.soax.com:5000")
      = some (U, P, "proxy.soax.com", "5000") := by
  obtain ⟨x, u', hu⟩ : ∃ x u', U.data = x :: u' := by
    cases hc : U.data with
    | nil => exact absurd hc hU
    | cons x u' => exact ⟨x, u', rfl⟩
  obtain ⟨y, p', hp⟩ : ∃ y p', P.data = y :: p' := by
    cases hc : P.data with
    | nil => exact absurd hc hP
    | cons y p' => exact ⟨y, p', rfl⟩
  have c1 : matchHostPort ("proxy.soax.com".data ++ ':' :: "5000".data)
      = some ("proxy.soax.com".data, "5000".data) := rfl
  have c2 : lastSplit '@' (fun t => (matchHostPort t).isSome)
      ("proxy.soax.com".data ++ ':' :: "5000".data) = none := rfl
  have c3 : matchTail3 ("5000".data) = none := rfl
  have hnoNLp : noNL (y :: p') = true := by
    apply noNL_of_not_mem
    intro hm
    rw [← hp] at hm
    exact (hPc _ hm).2.2 rfl
  have hpc : ':' ∉ y :: p' := by
    intro hm
    rw [← hp] at hm
    exact (hPc _ hm).1 rfl
  have hsdata : (U ++ ":" ++ P ++ "@proxy.soax.com:5000").data
      = x :: (u' ++ ':' :: (y :: (p' ++ '@'
          :: ("proxy.soax.com".data ++ ':' :: "5000".data)))) := by
    rw [str_data_append, str_data_append, str_data_append, hu, hp]
    simp [List.append_assoc]
  have f1 : matchTail3 (y :: (p' ++ '@' :: ("proxy.soax.com".data ++ ':' :: "5000".data)))
      = some (y :: p', "proxy.soax.com".data, "5000".data) := by
    simp only [matchTail3]
    rw [lastSplit_boundary '@' _ p' _ (by rw [c1]; rfl) c2]
    simp only [c1]
    simp [hnoNLp]
  have f3 : lastSplit ':' (fun t => (matchTail3 t).isSome)
      (y :: (p' ++ '@' :: ("proxy.soax.com".data ++ ':' :: "5000".data))) = none := by
    apply lastSplit_none
    intro l₁ l₂ he
    have hshape : y :: (p' ++ '@' :: ("proxy.soax.com".data ++ ':' :: "5000".data))
        = ((y :: p') ++ '@' :: "proxy.soax.com".data) ++ ':' :: "5000".data := by
      simp [List.append_assoc]
    rw [hshape] at he
    have hAn : ':' ∉ (y :: p') ++ '@' :: "proxy.soax.com".data := by
      intro hm
      rcases List.mem_append.mp hm with hm | hm
      · exact hpc hm
      · rcases List.mem_cons.mp hm with hm | hm
        · exact absurd hm (by decide)
        · exact (by decide : ':' ∉ "proxy.soax.com".data) hm
    have hDn : ':' ∉ "5000".data := by decide
    obtain ⟨h1, h2⟩ := append_cons_unique hAn hDn he
    rw [h2]
    show (matchTail3 ("5000".data)).isSome = false
    rw [c3]
    rfl
  have f4 : lastSplit ':' (fun t => (matchTail3 t).isSome)
      (u' ++ ':' :: (y :: (p' ++ '@' :: ("proxy.soax.com".data ++ ':' :: "5000".data))))
      = some (u', y :: (p' ++ '@' :: ("proxy.soax.com".data ++ ':' :: "5000".data))) :=
    lastSplit_boundary _ _ u' _ (by rw [f1]; rfl) f3
  have hre : x :: (u' ++ ':' :: (y :: (p' ++ '@'
        :: ("proxy.soax.com".data ++ ':' :: "5000".data))))
      = (x :: (u' ++ ':' :: (y :: (p' ++ '@' :: ("proxy.soax.com".data
          ++ [':', '5', '0', '0']))))) ++ ['0'] := by
    simp [List.append_assoc]
  unfold parseProxyString
  rw [hsdata, hre, stripTrailNL_concat_ne (by decide), ← hre]
  simp only [parseCore]
  rw [f4]
  simp only [f1]
  rw [if_pos ?hnl]
  case hnl => exact hu ▸ hUn
  rw [← hu, ← hp]

theorem generate_session_id_noNL (draw : ℕ → Fin 62) (len : ℕ) :
    noNL (generate_session_id draw len).data = true := by
  apply noNL_of_not_mem
  intro hm
  simp only [generate_session_id] at hm
  rw [List.mem_map] at hm
  obtain ⟨i, _, hi⟩ := hm
  have hmem : sessionChars.get (Fin.cast (by decide) (draw i)) ∈ sessionChars :=
    List.get_mem _ _ _
  rw [hi] at hmem
  exact (by decide : '\n' ∉ sessionChars) hmem

theorem noNL_pyJoin (sep : String) (hsep : noNL sep.data = true) :
    ∀ parts : List String, (∀ s ∈ parts, noNL s.data = true) →
      noNL (pyJoin sep parts).data = true
  | [], _ => rfl
  | [s], h => h s (by simp)
  | s :: t :: rest, h => by
    show noNL (s ++ sep ++ pyJoin sep (t :: rest)).data = true
    rw [str_data_append, str_data_append]
    exact noNL_append (noNL_append (h s (by simp)) hsep)
      (noNL_pyJoin sep hsep (t :: rest) (fun s' hs' => h s' (by simp [hs'])))

/-- Auxiliary: the username is the dash-join of a non-empty parts list
headed by the package field, each part being one of the six possible
labelled fields. -/
theorem username_data_structure (draw : ℕ → Fin 62) (pid pw : String)
    (region city : Option String) :
    ∃ t : List String, t ≠ []
      ∧ (build_soax_proxy draw pid pw "us" region city 3600).username
          = pyJoin "-" (("package-" ++ pid) :: t)
      ∧ ∀ s ∈ ("package-" ++ pid) :: t,
          (s = "package-" ++ pid ∨ s = "country-" ++ pyLower "us"
            ∨ s = "region-" ++ cleanPlus (region.getD "")
            ∨ s = "city-" ++ cleanPlus (city.getD "")
            ∨ s = "sessionid-" ++ generate_session_id draw 16
            ∨ s = "sessionlength-" ++ toString 3600) := by
  simp only [build_soax_proxy]
  rw [if_pos (show ("us" : String) ≠ "" by decide)]
  split_ifs with h2 h3 h4
  · exact ⟨["country-" ++ pyLower "us", "region-" ++ cleanPlus (region.getD ""),
      "city-" ++ cleanPlus (city.getD ""), "sessionid-" ++ generate_session_id draw 16,
      "sessionlength-" ++ toString 3600], by simp, rfl,
      by intro s hs; simp at hs; tauto⟩
  · exact ⟨["country-" ++ pyLower "us", "city-" ++ cleanPlus (city.getD ""),
      "sessionid-" ++ generate_session_id draw 16,
      "sessionlength-" ++ toString 3600], by simp, rfl,
      by intro s hs; simp at hs; tauto⟩
  · exact ⟨["country-" ++ pyLower "us", "region-" ++ cleanPlus (region.getD ""),
      "sessionid-" ++ generate_session_id draw 16,
      "sessionlength-" ++ toString 3600], by simp, rfl,
      by intro s hs; simp at hs; tauto⟩
  · exact ⟨["country-" ++ pyLower "us", "sessionid-" ++ generate_session_id draw 16,
      "sessionlength-" ++ toString 3600], by simp, rfl,
      by intro s hs; simp at hs; tauto⟩

theorem username_noNL (draw : ℕ → Fin 62) (pid pw : String) (region city : Option String)
    (hpid : '\n' ∉ pid.data)
    (hr : ∀ r, region = some r → '\n' ∉ r.data)
    (hc : ∀ c, city = some c → '\n' ∉ c.data) :
    noNL (build_soax_proxy draw pid pw "us" region city 3600).username.data = true := by
  obtain ⟨t, _, he, hmem⟩ := username_data_structure draw pid pw region city
  rw [he]
  apply noNL_pyJoin "-" (by decide)
  intro s hs
  rcases hmem s hs with h | h | h | h | h | h <;> subst h
  · rw [str_data_append]
    exact noNL_append (by decide) (noNL_of_not_mem hpid)
  · decide
  · rw [str_data_append]
    refine noNL_append (by decide) (noNL_cleanPlus _ ?_)
    cases region with
    | none => decide
    | some r => exact hr r rfl
  · rw [str_data_append]
    refine noNL_append (by decide) (noNL_cleanPlus _ ?_)
    cases city with
    | none => decide
    | some c => exact hc c rfl
  · rw [str_data_append]
    exact noNL_append (by decide) (generate_session_id_noNL draw 16)
  · decide

theorem username_ne_nil (draw : ℕ → Fin 62) (pid pw : String) (region city : Option String) :
    (build_soax_proxy draw pid pw "us" region city 3600).username.data ≠ [] := by
  obtain ⟨t, ht, he, _⟩ := username_data_structure draw pid pw region city
  rw [he]
  cases t with
  | nil => exact absurd rfl ht
  | cons t0 rest =>
    show (("package-" ++ pid) ++ "-" ++ pyJoin "-" (t0 :: rest)).data ≠ []
    rw [str_data_append, str_data_append, str_data_append]
    simp

/-! ### The round-trip claim -/

/-- C10 (amended): for every package identifier, region and city free of
newline characters and every non-empty password containing none of
':', '@' or a newline, the probe's parse of the synthesizer's
connection string recovers exactly the synthesizer's username, the
password, host "proxy.soax.com" and port "5000".  (The newline
restriction is forced: Python's `.` does not match a newline, so a
newline in any field makes the parse fail — see the counterexample.) -/
theorem proxy_string_roundtrip (draw : ℕ → Fin 62) (pid pw : String) (region city : Option String)
    (hpw : pw.data ≠ [])
    (hpwc : ∀ ch ∈ pw.data, ch ≠ ':' ∧ ch ≠ '@' ∧ ch ≠ '\n')
    (hpid : '\n' ∉ pid.data)
    (hr : ∀ r, region = some r → '\n' ∉ r.data)
    (hc : ∀ c, city = some c → '\n' ∉ c.data) :
    parseProxyString (build_soax_proxy draw pid pw "us" region city 3600).full_string
      = some ((build_soax_proxy draw pid pw "us" region city 3600).username, pw,
          "proxy.soax.com", "5000") := by
  have hfs : (build_soax_proxy draw pid pw "us" region city 3600).full_string
      = (build_soax_proxy draw pid pw "us" region city 3600).username
          ++ ":" ++ pw ++ "@proxy.soax.com:5000" := rfl
  rw [hfs]
  exact parse_roundtrip_generic _ _ (username_ne_nil draw pid pw region city)
    (username_noNL draw pid pw region city hpid hr hc) hpw hpwc

/-- Witness for the amended C10 at concrete targeting fields. -/
theorem proxy_string_roundtrip_witness :
    ("pw" : String).data ≠ []
    ∧ parseProxyString (build_soax_proxy zeroDraw "p1" "pw" "us" (some "South Beach")
        (some "Miami") 3600).full_string
      = some ((build_soax_proxy zeroDraw "p1" "pw" "us" (some "South Beach")
          (some "Miami") 3600).username, "pw", "proxy.soax.com", "5000") :=
  ⟨by decide, proxy_string_roundtrip zeroDraw "p1" "pw" (some "South Beach") (some "Miami")
    (by decide) (by decide) (by decide)
    (fun r h => by injection h with h2; rw [← h2]; decide)
    (fun c h => by injection h with h2; rw [← h2]; decide)⟩

/-- Counterexample to C10 as stated: the password "\n" is non-empty and
contains neither ':' nor '@', yet the parse of the resulting connection
string fails entirely (Python's `.` does not match a newline), so the
round trip does not hold for every such password. -/
theorem proxy_string_roundtrip_counterexample :
    ("\n" : String) ≠ ""
    ∧ (∀ ch ∈ ("\n" : String).data, ch ≠ ':' ∧ ch ≠ '@')
    ∧ parseProxyString (build_soax_proxy zeroDraw "p1" "\n" "us" none none 3600).full_string
        = none :=
  ⟨by decide, by decide, rfl⟩

end ProxyGen
